import Mathlib

/-!
Shallow embedding of the SMessage room-registry server (src/server.js):
the room store, the passcode generator, the socket event handlers, and the
transport-layer membership primitives they use.  Registry maps are modelled
as association lists with JS `Map` semantics, per-socket fields as an
explicit session record, and the scheduled expiry timeouts as a list of
pending (passcode, roomId) callbacks that each fire at most once.
-/

/-- Connection identifier (a socket id). -/
abbrev CId := Nat

/-- A live room record, as stored in the `rooms` map: `{ roomId, expireAt }`. -/
structure Room where
  roomId : String
  expireAt : Nat
deriving DecidableEq, Repr

/-- Per-socket fields the handlers assign (`socket.roomId`, `socket.userName`);
`none` models a field never assigned (JS `undefined`). -/
structure Session where
  roomId : Option String
  userName : Option String
deriving DecidableEq, Repr

/-- Payloads emitted to clients. -/
inductive Payload where
  | roomCreated (passcode roomId : String) (expireAt : Nat)
  | joinSuccess (roomId : String) (passcode : Option String) (expireAt : Nat)
  | systemMessage (text : String)
  | newMessage (message : String) (sender : Option String)
  | showTyping
  | hideTyping
deriving DecidableEq, Repr

/-- One delivered event: recipient connection and payload. -/
abbrev Emit := CId × Payload

/-- JS `Map.get`: the binding of the key, if any. -/
def mfind {α : Type} : List (String × α) → String → Option α
  | [], _ => none
  | (k, v) :: m, q => if q = k then some v else mfind m q

/-- JS `Map.delete`: remove the binding of the key. -/
def mdel {α : Type} : List (String × α) → String → List (String × α)
  | [], _ => []
  | (k, v) :: m, q => if q = k then mdel m q else (k, v) :: mdel m q

/-- JS `Map.set`: bind the key, replacing any previous binding. -/
def mset {α : Type} (m : List (String × α)) (q : String) (v : α) : List (String × α) :=
  (q, v) :: mdel m q

/-- Transport group table of the socket.io adapter: roomId → member list
(insertion order, no duplicates). -/
abbrev Groups := List (String × List CId)

/-- Member set of a transport group (`io.sockets.adapter.rooms.get`), empty if absent. -/
def membersOf (g : Groups) (r : String) : List CId := (mfind g r).getD []

/-- socket.join: add the connection to the group (no-op if already a member). -/
def sjoin (g : Groups) (r : String) (c : CId) : Groups :=
  match mfind g r with
  | some l => if c ∈ l then g else mset g r (l ++ [c])
  | none => mset g r [c]

/-- socket.leave: remove the connection from the group. -/
def sleave (g : Groups) (r : String) (c : CId) : Groups :=
  match mfind g r with
  | some l => mset g r (l.filter (fun d => d ≠ c))
  | none => g

/-- Transport cleanup after disconnect: the socket leaves every group. -/
def removeFromAll (g : Groups) (c : CId) : Groups :=
  g.map (fun kv => (kv.1, kv.2.filter (fun d => d ≠ c)))

/-- io.to(r).emit: deliver a payload to every member of the group. -/
def emitToRoom (g : Groups) (r : String) (pl : Payload) : List Emit :=
  (membersOf g r).map (fun c => (c, pl))

/-- socket.to(r).emit: deliver a payload to every member of the group except the
sender (the sender need not itself be a member). -/
def emitToRoomExcept (g : Groups) (r : String) (c : CId) (pl : Payload) : List Emit :=
  ((membersOf g r).filter (fun d => d ≠ c)).map (fun d => (d, pl))

/-- Whole-server state: the two registry maps, the transport groups, the
per-socket session fields, and the pending expiry timeouts (passcode, roomId). -/
structure ServerState where
  rooms : List (String × Room)
  roomIds : List (String × String)
  groups : Groups
  sessions : CId → Session
  timers : List (String × String)

/-- Fresh server: empty maps, no members, no sessions, no pending timers. -/
def initState : ServerState :=
  { rooms := [], roomIds := [], groups := [], sessions := fun _ => ⟨none, none⟩,
    timers := [] }

/-- One sample `Math.floor(100000 + Math.random() * 900000).toString()`, where
`u` is the value of `Math.floor(Math.random() * 900000)`. -/
def passcodeOfSample (u : Fin 900000) : String := toString (100000 + u.val)

/-- generateUniquePasscode: resample until the passcode is not a key of `rooms`.
The stream lists the successive random draws; `none` models exhausting the
stream before success (the do-while loop not having terminated yet). -/
def generateUniquePasscode (rooms : List (String × Room)) :
    List (Fin 900000) → Option String
  | [] => none
  | u :: rest =>
    match mfind rooms (passcodeOfSample u) with
    | some _ => generateUniquePasscode rooms rest
    | none => some (passcodeOfSample u)

/-- JS `String.prototype.trim`: strip leading and trailing whitespace. -/
def jsTrim (s : String) : String :=
  ⟨((s.data.dropWhile Char.isWhitespace).reverse.dropWhile Char.isWhitespace).reverse⟩

/-- JS truthiness of an optional string (`undefined` and `""` are falsy). -/
def truthy : Option String → Option String
  | some s => if s = "" then none else some s
  | none => none

/-- Room resolution of the joinRoom handler: try the (trimmed) passcode if
truthy, else reverse-lookup of a truthy roomId through `roomIds`. -/
def resolveRoom (st : ServerState) (pcOpt ridOpt : Option String) : Option Room :=
  match truthy pcOpt with
  | some pc => mfind st.rooms (jsTrim pc)
  | none =>
    match truthy ridOpt with
    | some rid =>
      match truthy (mfind st.roomIds rid) with
      | some p => mfind st.rooms p
      | none => none
    | none => none

/-- The display name a join records: `name || "Anonymous"`. -/
def joinName (nameOpt : Option String) : String :=
  match truthy nameOpt with
  | some n => n
  | none => "Anonymous"

/-- The join rejection test:
`members && members.size >= 2 && !socket.rooms.has(roomData.roomId)`. -/
def roomFull (st : ServerState) (cid : CId) (rid : String) : Bool :=
  match mfind st.groups rid with
  | some l => decide (2 ≤ l.length) && !(l.contains cid)
  | none => false

/-- Update one connection's session fields. -/
def updS (f : CId → Session) (c : CId) (ss : Session) : CId → Session :=
  fun d => if d = c then ss else f d

/-- Room TTL: 40 minutes in milliseconds. -/
def expiresIn : Nat := 40 * 60 * 1000

/-- Client/transport events the server reacts to.  `createRoom` carries the
random draws consumed by the passcode generator, the generated 128-bit roomId,
and the value of `Date.now()`; `expireFire` is a scheduled timeout firing. -/
inductive Event where
  | createRoom (cid : CId) (stream : List (Fin 900000)) (rid : String) (now : Nat)
  | joinRoom (cid : CId) (pcOpt ridOpt nameOpt : Option String)
  | sendMessage (cid : CId) (message : String)
  | typing (cid : CId)
  | stopTyping (cid : CId)
  | quitRoom (cid : CId)
  | disconnect (cid : CId)
  | expireFire (passcode rid : String)
deriving DecidableEq, Repr

/-- The createRoom handler: insert into both maps, join the creator to the new
group, set `socket.roomId`, emit `roomCreated`, and schedule the expiry
timeout.  Only `socket.roomId` is assigned; `socket.userName` is untouched. -/
def createRoomH (st : ServerState) (cid : CId) (stream : List (Fin 900000))
    (rid : String) (now : Nat) : ServerState × List Emit :=
  match generateUniquePasscode st.rooms stream with
  | none => (st, [])
  | some passcode =>
    let expireAt := now + expiresIn
    ({ rooms := mset st.rooms passcode ⟨rid, expireAt⟩,
       roomIds := mset st.roomIds rid passcode,
       groups := sjoin st.groups rid cid,
       sessions := updS st.sessions cid ⟨some rid, (st.sessions cid).userName⟩,
       timers := (passcode, rid) :: st.timers },
     [(cid, Payload.roomCreated passcode rid expireAt)])

/-- The joinRoom handler: resolve the room, reject on not-found or full,
otherwise join the group, set both session fields, emit `joinSuccess` to the
joiner and the joined system message to the whole group (io.to). -/
def joinRoomH (st : ServerState) (cid : CId) (pcOpt ridOpt nameOpt : Option String) :
    ServerState × List Emit :=
  match resolveRoom st pcOpt ridOpt with
  | none => (st, [(cid, Payload.systemMessage "Invalid or expired passcode.")])
  | some rd =>
    if roomFull st cid rd.roomId then
      (st, [(cid, Payload.systemMessage "Room is full.")])
    else
      let nm := joinName nameOpt
      let groups' := sjoin st.groups rd.roomId cid
      ({ st with groups := groups',
                 sessions := updS st.sessions cid ⟨some rd.roomId, some nm⟩ },
       (cid, Payload.joinSuccess rd.roomId (mfind st.roomIds rd.roomId) rd.expireAt)
         :: emitToRoom groups' rd.roomId (Payload.systemMessage (nm ++ " joined.")))

/-- The sendMessage handler: relay to the rest of the session's room, no-op if
`socket.roomId` is unset. -/
def sendMessageH (st : ServerState) (cid : CId) (message : String) :
    ServerState × List Emit :=
  match truthy (st.sessions cid).roomId with
  | none => (st, [])
  | some rid =>
    (st, emitToRoomExcept st.groups rid cid
      (Payload.newMessage message (st.sessions cid).userName))

/-- The typing handler. -/
def typingH (st : ServerState) (cid : CId) : ServerState × List Emit :=
  match truthy (st.sessions cid).roomId with
  | none => (st, [])
  | some rid => (st, emitToRoomExcept st.groups rid cid Payload.showTyping)

/-- The stopTyping handler. -/
def stopTypingH (st : ServerState) (cid : CId) : ServerState × List Emit :=
  match truthy (st.sessions cid).roomId with
  | none => (st, [])
  | some rid => (st, emitToRoomExcept st.groups rid cid Payload.hideTyping)

/-- The quitRoom handler: broadcast "<name> left." to the others, then leave the
group.  The session fields are not cleared (JS interpolation of an undefined
userName prints "undefined"). -/
def quitRoomH (st : ServerState) (cid : CId) : ServerState × List Emit :=
  match truthy (st.sessions cid).roomId with
  | none => (st, [])
  | some rid =>
    let nm := match (st.sessions cid).userName with
      | some n => n
      | none => "undefined"
    ({ st with groups := sleave st.groups rid cid },
     emitToRoomExcept st.groups rid cid (Payload.systemMessage (nm ++ " left.")))

/-- The disconnect handler, followed by the transport removing the socket from
all groups. -/
def disconnectH (st : ServerState) (cid : CId) : ServerState × List Emit :=
  let es := match truthy (st.sessions cid).roomId with
    | none => []
    | some rid =>
      let nm := match truthy (st.sessions cid).userName with
        | some n => n
        | none => "User"
      emitToRoomExcept st.groups rid cid (Payload.systemMessage (nm ++ " disconnected."))
  ({ st with groups := removeFromAll st.groups cid }, es)

/-- The scheduled expiry callback of the room created with (passcode, rid)
firing.  A pending timeout fires exactly once, hence is consumed from
`timers`; if the passcode is still present both map entries are removed, the
expiry message goes to the whole group (io.to), and every member is detached
(io.socketsLeave). -/
def expireH (st : ServerState) (passcode rid : String) : ServerState × List Emit :=
  if (passcode, rid) ∈ st.timers then
    match mfind st.rooms passcode with
    | some _ =>
      ({ st with rooms := mdel st.rooms passcode,
                 roomIds := mdel st.roomIds rid,
                 groups := mdel st.groups rid,
                 timers := st.timers.erase (passcode, rid) },
       emitToRoom st.groups rid (Payload.systemMessage "⚠️ Room expired."))
    | none => ({ st with timers := st.timers.erase (passcode, rid) }, [])
  else (st, [])

/-- One event dispatched to its handler. -/
def stepE (st : ServerState) : Event → ServerState × List Emit
  | .createRoom cid stream rid now => createRoomH st cid stream rid now
  | .joinRoom cid pcOpt ridOpt nameOpt => joinRoomH st cid pcOpt ridOpt nameOpt
  | .sendMessage cid message => sendMessageH st cid message
  | .typing cid => typingH st cid
  | .stopTyping cid => stopTypingH st cid
  | .quitRoom cid => quitRoomH st cid
  | .disconnect cid => disconnectH st cid
  | .expireFire passcode rid => expireH st passcode rid

/-- Run a list of events from a state. -/
def steps (st : ServerState) : List Event → ServerState
  | [] => st
  | ev :: evs => steps (stepE st ev).1 evs

/-- All payloads delivered while running a list of events. -/
def runEmits (st : ServerState) : List Event → List Emit
  | [] => []
  | ev :: evs => (stepE st ev).2 ++ runEmits (stepE st ev).1 evs

/-- A state the server can be in after some sequence of events. -/
def Reachable (st : ServerState) : Prop := ∃ evs, steps initState evs = st

/-- The event's generated roomId (if any) does not collide with an existing
one.  crypto.randomBytes(16) makes a collision possible but negligibly likely;
the code performs no check. -/
def freshRoomKey (st : ServerState) : Event → Prop
  | .createRoom _ _ rid _ => mfind st.roomIds rid = none ∧ mfind st.groups rid = none
  | _ => True

/-- States reachable along traces in which every created roomId was fresh. -/
inductive ReachableF : ServerState → Prop
  | init : ReachableF initState
  | step (st : ServerState) (ev : Event) (h : ReachableF st) (hf : freshRoomKey st ev) :
      ReachableF (stepE st ev).1

/-- The spec's bidirectional index consistency between the two registry maps. -/
def BidirConsistent (st : ServerState) : Prop :=
  (∀ p room, mfind st.rooms p = some room → mfind st.roomIds room.roomId = some p) ∧
  (∀ r p, mfind st.roomIds r = some p →
    ∃ room, mfind st.rooms p = some room ∧ room.roomId = r)

/-- Every live roomId's transport group has at most two members. -/
def CapOK (st : ServerState) : Prop :=
  ∀ r p, mfind st.roomIds r = some p → (membersOf st.groups r).length ≤ 2

/-- Inductive registry invariant: bidirectional consistency, every pending
timer points at a live room carrying its roomId, pending timers have pairwise
distinct passcodes, and live groups respect the capacity bound. -/
def RegInv (st : ServerState) : Prop :=
  BidirConsistent st ∧
  (∀ pr : String × String, pr ∈ st.timers →
    ∃ room, mfind st.rooms pr.1 = some room ∧ room.roomId = pr.2) ∧
  (st.timers.map Prod.fst).Nodup ∧
  CapOK st

example : passcodeOfSample ⟨0, by decide⟩ = "100000" := rfl

example : jsTrim " 100000 " = "100000" := rfl

/-! ### Lemmas about the map and group primitives -/

theorem mfind_mdel {α : Type} (m : List (String × α)) (q q' : String) :
    mfind (mdel m q) q' = if q' = q then none else mfind m q' := by
  induction m with
  | nil => simp [mdel, mfind]
  | cons kv m ih =>
    obtain ⟨k, v⟩ := kv
    by_cases hqk : q = k
    · subst hqk
      by_cases h : q' = q
      · subst h
        simp [mdel, mfind, ih]
      · simp [mdel, mfind, h, ih]
    · by_cases h : q' = k
      · subst h
        simp [mdel, mfind, hqk, Ne.symm hqk, ih]
      · simp [mdel, mfind, hqk, h, ih]

theorem mfind_mset {α : Type} (m : List (String × α)) (q : String) (v : α) (q' : String) :
    mfind (mset m q v) q' = if q' = q then some v else mfind m q' := by
  by_cases h : q' = q <;> simp [mset, mfind, mfind_mdel, h]

theorem mdel_sublist {α : Type} (m : List (String × α)) (q : String) :
    (mdel m q).Sublist m := by
  induction m with
  | nil => simp [mdel]
  | cons kv m ih =>
    obtain ⟨k, v⟩ := kv
    by_cases h : q = k
    · simpa [mdel, h] using ih.cons (k, v)
    · simpa [mdel, h] using ih.cons₂ (k, v)

theorem mfind_eq_none_iff {α : Type} (m : List (String × α)) (q : String) :
    mfind m q = none ↔ q ∉ m.map Prod.fst := by
  induction m with
  | nil => simp [mfind]
  | cons kv m ih =>
    obtain ⟨k, v⟩ := kv
    by_cases h : q = k <;> simp [mfind, h, ih]

theorem nodup_keys_mdel {α : Type} (m : List (String × α)) (q : String)
    (h : (m.map Prod.fst).Nodup) : ((mdel m q).map Prod.fst).Nodup :=
  h.sublist ((mdel_sublist m q).map Prod.fst)

theorem nodup_keys_mset {α : Type} (m : List (String × α)) (q : String) (v : α)
    (h : (m.map Prod.fst).Nodup) : ((mset m q v).map Prod.fst).Nodup := by
  refine List.nodup_cons.mpr ⟨?_, nodup_keys_mdel m q h⟩
  have := mfind_mdel m q q
  simp only [if_pos rfl] at this
  exact (mfind_eq_none_iff (mdel m q) q).mp this

/-! groups -/

theorem mfind_sjoin_ne (g : Groups) (r0 : String) (c : CId) (r : String) (h : r ≠ r0) :
    mfind (sjoin g r0 c) r = mfind g r := by
  unfold sjoin
  cases hg : mfind g r0 with
  | none => simp [mfind_mset, h]
  | some l =>
    by_cases hc : c ∈ l <;> simp [hc, mfind_mset, h]

theorem membersOf_sjoin_ne (g : Groups) (r0 : String) (c : CId) (r : String) (h : r ≠ r0) :
    membersOf (sjoin g r0 c) r = membersOf g r := by
  simp [membersOf, mfind_sjoin_ne g r0 c r h]

theorem membersOf_sjoin_self (g : Groups) (r : String) (c : CId) :
    membersOf (sjoin g r c) r =
      if c ∈ membersOf g r then membersOf g r else membersOf g r ++ [c] := by
  unfold sjoin membersOf
  cases hg : mfind g r with
  | none => simp [mfind_mset]
  | some l =>
    by_cases hc : c ∈ l <;> simp [hc, hg, mfind_mset]

theorem mem_membersOf_sjoin_self (g : Groups) (r : String) (c : CId) :
    c ∈ membersOf (sjoin g r c) r := by
  rw [membersOf_sjoin_self]
  by_cases hc : c ∈ membersOf g r <;> simp [hc]

theorem mem_membersOf_sjoin_of_mem (g : Groups) (r0 : String) (c : CId) (r : String)
    (d : CId) (h : d ∈ membersOf g r) : d ∈ membersOf (sjoin g r0 c) r := by
  by_cases hr : r = r0
  · subst hr
    rw [membersOf_sjoin_self]
    by_cases hc : c ∈ membersOf g r <;> simp [hc, h]
  · rwa [membersOf_sjoin_ne g r0 c r hr]

theorem mfind_sleave_ne (g : Groups) (r0 : String) (c : CId) (r : String) (h : r ≠ r0) :
    mfind (sleave g r0 c) r = mfind g r := by
  unfold sleave
  cases hg : mfind g r0 with
  | none => rfl
  | some l => simp [mfind_mset, h]

theorem membersOf_sleave_self (g : Groups) (r : String) (c : CId) :
    membersOf (sleave g r c) r = (membersOf g r).filter (fun d => d ≠ c) := by
  unfold sleave membersOf
  cases hg : mfind g r with
  | none => simp [hg]
  | some l => simp [hg, mfind_mset]

theorem mfind_removeFromAll (g : Groups) (c : CId) (r : String) :
    mfind (removeFromAll g c) r = (mfind g r).map (fun l => l.filter (fun d => d ≠ c)) := by
  induction g with
  | nil => simp [removeFromAll, mfind]
  | cons kv g ih =>
    obtain ⟨k, l⟩ := kv
    by_cases h : r = k
    · simp [removeFromAll, mfind, h]
    · simp only [removeFromAll, List.map_cons, mfind, h, if_false]
      simpa [removeFromAll] using ih

theorem membersOf_removeFromAll (g : Groups) (c : CId) (r : String) :
    membersOf (removeFromAll g c) r = (membersOf g r).filter (fun d => d ≠ c) := by
  unfold membersOf
  rw [mfind_removeFromAll]
  cases mfind g r <;> simp

theorem mfind_mdel_groups_ne (g : Groups) (r0 r : String) (h : r ≠ r0) :
    mfind (mdel g r0) r = mfind g r := by
  simp [mfind_mdel, h]

/-! the passcode generator -/

theorem generateUniquePasscode_not_mem (rooms : List (String × Room))
    (stream : List (Fin 900000)) (p : String)
    (h : generateUniquePasscode rooms stream = some p) : mfind rooms p = none := by
  induction stream with
  | nil => simp [generateUniquePasscode] at h
  | cons u rest ih =>
    unfold generateUniquePasscode at h
    cases hu : mfind rooms (passcodeOfSample u) with
    | some room => rw [hu] at h; exact ih h
    | none => rw [hu] at h; cases h; exact hu

/-! ### Handler state shapes -/

theorem sendMessageH_fst (st : ServerState) (cid : CId) (m : String) :
    (sendMessageH st cid m).1 = st := by
  unfold sendMessageH
  cases truthy (st.sessions cid).roomId <;> rfl

theorem typingH_fst (st : ServerState) (cid : CId) : (typingH st cid).1 = st := by
  unfold typingH
  cases truthy (st.sessions cid).roomId <;> rfl

theorem stopTypingH_fst (st : ServerState) (cid : CId) : (stopTypingH st cid).1 = st := by
  unfold stopTypingH
  cases truthy (st.sessions cid).roomId <;> rfl

theorem disconnectH_fst (st : ServerState) (cid : CId) :
    (disconnectH st cid).1 = { st with groups := removeFromAll st.groups cid } := rfl

theorem quitRoomH_fst (st : ServerState) (cid : CId) :
    (quitRoomH st cid).1 =
      (match truthy (st.sessions cid).roomId with
        | none => st
        | some rid => { st with groups := sleave st.groups rid cid }) := by
  unfold quitRoomH
  cases truthy (st.sessions cid).roomId <;> rfl

/-! ### Duplicate-free transport groups -/

/-- Every transport group's member list is duplicate-free. -/
def NodupGroups (st : ServerState) : Prop :=
  ∀ r l, mfind st.groups r = some l → l.Nodup

theorem nodupG_sjoin (g : Groups) (r0 : String) (c : CId)
    (h : ∀ r l, mfind g r = some l → l.Nodup) :
    ∀ r l, mfind (sjoin g r0 c) r = some l → l.Nodup := by
  intro r l hl
  unfold sjoin at hl
  cases hg : mfind g r0 with
  | none =>
    rw [hg, mfind_mset] at hl
    by_cases hr : r = r0
    · rw [if_pos hr] at hl
      cases hl
      simp
    · rw [if_neg hr] at hl
      exact h r l hl
  | some l0 =>
    rw [hg] at hl
    dsimp only at hl
    by_cases hc : c ∈ l0
    · rw [if_pos hc] at hl
      exact h r l hl
    · rw [if_neg hc, mfind_mset] at hl
      by_cases hr : r = r0
      · rw [if_pos hr] at hl
        cases hl
        simp only [List.nodup_append, List.nodup_cons, List.not_mem_nil, not_false_iff,
          List.nodup_nil, and_true, true_and]
        exact ⟨h r0 l0 hg, fun a ha hac => hc ((List.mem_singleton.mp hac) ▸ ha)⟩
      · rw [if_neg hr] at hl
        exact h r l hl

theorem nodupG_sleave (g : Groups) (r0 : String) (c : CId)
    (h : ∀ r l, mfind g r = some l → l.Nodup) :
    ∀ r l, mfind (sleave g r0 c) r = some l → l.Nodup := by
  intro r l hl
  unfold sleave at hl
  cases hg : mfind g r0 with
  | none => rw [hg] at hl; exact h r l hl
  | some l0 =>
    rw [hg] at hl
    dsimp only at hl
    rw [mfind_mset] at hl
    by_cases hr : r = r0
    · rw [if_pos hr] at hl
      cases hl
      exact (h r0 l0 hg).filter _
    · rw [if_neg hr] at hl
      exact h r l hl

theorem nodupG_removeFromAll (g : Groups) (c : CId)
    (h : ∀ r l, mfind g r = some l → l.Nodup) :
    ∀ r l, mfind (removeFromAll g c) r = some l → l.Nodup := by
  intro r l hl
  rw [mfind_removeFromAll] at hl
  cases hg : mfind g r with
  | none => rw [hg] at hl; cases hl
  | some l0 =>
    rw [hg] at hl
    cases hl
    exact (h r l0 hg).filter _

theorem nodupG_mdel (g : Groups) (r0 : String)
    (h : ∀ r l, mfind g r = some l → l.Nodup) :
    ∀ r l, mfind (mdel g r0) r = some l → l.Nodup := by
  intro r l hl
  rw [mfind_mdel] at hl
  by_cases hr : r = r0
  · rw [if_pos hr] at hl; cases hl
  · rw [if_neg hr] at hl; exact h r l hl

theorem nodupGroups_step (st : ServerState) (ev : Event) (h : NodupGroups st) :
    NodupGroups (stepE st ev).1 := by
  cases ev with
  | createRoom cid stream rid now =>
    simp only [stepE, createRoomH]
    cases generateUniquePasscode st.rooms stream with
    | none => exact h
    | some p => exact nodupG_sjoin st.groups rid cid h
  | joinRoom cid pcOpt ridOpt nameOpt =>
    simp only [stepE, joinRoomH]
    cases resolveRoom st pcOpt ridOpt with
    | none => exact h
    | some rd =>
      by_cases hfull : roomFull st cid rd.roomId
      · simp only [if_pos hfull]
        exact h
      · simp only [if_neg hfull]
        exact nodupG_sjoin st.groups rd.roomId cid h
  | sendMessage cid m => rw [stepE, sendMessageH_fst]; exact h
  | typing cid => rw [stepE, typingH_fst]; exact h
  | stopTyping cid => rw [stepE, stopTypingH_fst]; exact h
  | quitRoom cid =>
    rw [stepE, quitRoomH_fst]
    cases truthy (st.sessions cid).roomId with
    | none => exact h
    | some rid => exact nodupG_sleave st.groups rid cid h
  | disconnect cid =>
    rw [stepE, disconnectH_fst]
    exact nodupG_removeFromAll st.groups cid h
  | expireFire p r =>
    simp only [stepE, expireH]
    by_cases hm : (p, r) ∈ st.timers
    · simp only [if_pos hm]
      cases mfind st.rooms p with
      | none => exact h
      | some room => exact nodupG_mdel st.groups r h
    · simp only [if_neg hm]
      exact h

theorem nodupGroups_steps (evs : List Event) :
    ∀ st, NodupGroups st → NodupGroups (steps st evs) := by
  induction evs with
  | nil => intro st h; exact h
  | cons ev evs ih =>
    intro st h
    exact ih (stepE st ev).1 (nodupGroups_step st ev h)

theorem nodupGroups_reachable (st : ServerState) (h : Reachable st) : NodupGroups st := by
  obtain ⟨evs, rfl⟩ := h
  refine nodupGroups_steps evs initState ?_
  intro r l hl
  cases hl

/-! ### Duplicate-free room keys -/

/-- The live passcodes (keys of `rooms`) are pairwise distinct. -/
def NodupRoomKeys (st : ServerState) : Prop := (st.rooms.map Prod.fst).Nodup

theorem nodupRoomKeys_step (st : ServerState) (ev : Event) (h : NodupRoomKeys st) :
    NodupRoomKeys (stepE st ev).1 := by
  cases ev with
  | createRoom cid stream rid now =>
    simp only [stepE, createRoomH]
    cases generateUniquePasscode st.rooms stream with
    | none => exact h
    | some p => exact nodup_keys_mset st.rooms p _ h
  | joinRoom cid pcOpt ridOpt nameOpt =>
    simp only [stepE, joinRoomH]
    cases resolveRoom st pcOpt ridOpt with
    | none => exact h
    | some rd =>
      by_cases hfull : roomFull st cid rd.roomId
      · simp only [if_pos hfull]; exact h
      · simp only [if_neg hfull]; exact h
  | sendMessage cid m => rw [stepE, sendMessageH_fst]; exact h
  | typing cid => rw [stepE, typingH_fst]; exact h
  | stopTyping cid => rw [stepE, stopTypingH_fst]; exact h
  | quitRoom cid =>
    rw [stepE, quitRoomH_fst]
    cases truthy (st.sessions cid).roomId with
    | none => exact h
    | some rid => exact h
  | disconnect cid => rw [stepE, disconnectH_fst]; exact h
  | expireFire p r =>
    simp only [stepE, expireH]
    by_cases hm : (p, r) ∈ st.timers
    · simp only [if_pos hm]
      cases mfind st.rooms p with
      | none => exact h
      | some room => exact nodup_keys_mdel st.rooms p h
    · simp only [if_neg hm]
      exact h

theorem nodupRoomKeys_reachable (st : ServerState) (h : Reachable st) :
    NodupRoomKeys st := by
  obtain ⟨evs, rfl⟩ := h
  have hall : ∀ evs2 st2, NodupRoomKeys st2 → NodupRoomKeys (steps st2 evs2) := by
    intro evs2
    induction evs2 with
    | nil => intro st2 h2; exact h2
    | cons ev evs2 ih => intro st2 h2; exact ih (stepE st2 ev).1 (nodupRoomKeys_step st2 ev h2)
  exact hall evs initState (by simp [NodupRoomKeys, initState])

/-! ### Handler equations -/

theorem createRoomH_eq_some (st : ServerState) (cid : CId) (stream : List (Fin 900000))
    (rid : String) (now : Nat) (p : String)
    (hgup : generateUniquePasscode st.rooms stream = some p) :
    createRoomH st cid stream rid now =
      ({ rooms := mset st.rooms p ⟨rid, now + expiresIn⟩,
         roomIds := mset st.roomIds rid p,
         groups := sjoin st.groups rid cid,
         sessions := updS st.sessions cid ⟨some rid, (st.sessions cid).userName⟩,
         timers := (p, rid) :: st.timers },
       [(cid, Payload.roomCreated p rid (now + expiresIn))]) := by
  unfold createRoomH
  rw [hgup]

theorem createRoomH_eq_none (st : ServerState) (cid : CId) (stream : List (Fin 900000))
    (rid : String) (now : Nat)
    (hgup : generateUniquePasscode st.rooms stream = none) :
    createRoomH st cid stream rid now = (st, []) := by
  unfold createRoomH
  rw [hgup]

theorem joinRoomH_eq_notfound (st : ServerState) (cid : CId)
    (pcOpt ridOpt nameOpt : Option String)
    (hres : resolveRoom st pcOpt ridOpt = none) :
    joinRoomH st cid pcOpt ridOpt nameOpt =
      (st, [(cid, Payload.systemMessage "Invalid or expired passcode.")]) := by
  unfold joinRoomH
  rw [hres]

theorem joinRoomH_eq_full (st : ServerState) (cid : CId)
    (pcOpt ridOpt nameOpt : Option String) (rd : Room)
    (hres : resolveRoom st pcOpt ridOpt = some rd)
    (hfull : roomFull st cid rd.roomId = true) :
    joinRoomH st cid pcOpt ridOpt nameOpt =
      (st, [(cid, Payload.systemMessage "Room is full.")]) := by
  unfold joinRoomH
  rw [hres]
  simp only [hfull, if_true]

theorem joinRoomH_eq_ok (st : ServerState) (cid : CId)
    (pcOpt ridOpt nameOpt : Option String) (rd : Room)
    (hres : resolveRoom st pcOpt ridOpt = some rd)
    (hfull : roomFull st cid rd.roomId = false) :
    joinRoomH st cid pcOpt ridOpt nameOpt =
      ({ st with groups := sjoin st.groups rd.roomId cid,
                 sessions := updS st.sessions cid ⟨some rd.roomId, some (joinName nameOpt)⟩ },
       (cid, Payload.joinSuccess rd.roomId (mfind st.roomIds rd.roomId) rd.expireAt)
         :: emitToRoom (sjoin st.groups rd.roomId cid) rd.roomId
              (Payload.systemMessage (joinName nameOpt ++ " joined."))) := by
  unfold joinRoomH
  rw [hres]
  simp only [hfull, Bool.false_eq_true, if_false]

theorem expireH_eq_notpending (st : ServerState) (p r : String)
    (hm : (p, r) ∉ st.timers) : expireH st p r = (st, []) := by
  unfold expireH
  rw [if_neg hm]

theorem expireH_eq_live (st : ServerState) (p r : String) (room : Room)
    (hm : (p, r) ∈ st.timers) (hroom : mfind st.rooms p = some room) :
    expireH st p r =
      ({ st with rooms := mdel st.rooms p,
                 roomIds := mdel st.roomIds r,
                 groups := mdel st.groups r,
                 timers := st.timers.erase (p, r) },
       emitToRoom st.groups r (Payload.systemMessage "⚠️ Room expired.")) := by
  unfold expireH
  rw [if_pos hm, hroom]

theorem expireH_eq_dead (st : ServerState) (p r : String)
    (hm : (p, r) ∈ st.timers) (hroom : mfind st.rooms p = none) :
    expireH st p r = ({ st with timers := st.timers.erase (p, r) }, []) := by
  unfold expireH
  rw [if_pos hm, hroom]

/-! ### Preservation of the registry invariant -/

theorem keys_nodup_inj {β : Type} (tl : List (String × β))
    (h : (tl.map Prod.fst).Nodup) (a b : String × β)
    (ha : a ∈ tl) (hb : b ∈ tl) (heq : a.1 = b.1) : a = b := by
  induction tl with
  | nil => cases ha
  | cons x tl ih =>
    simp only [List.map_cons, List.nodup_cons] at h
    rcases List.mem_cons.mp ha with rfl | ha2
    · rcases List.mem_cons.mp hb with rfl | hb2
      · rfl
      · exact absurd (heq ▸ List.mem_map_of_mem Prod.fst hb2) h.1
    · rcases List.mem_cons.mp hb with rfl | hb2
      · exact absurd (heq ▸ List.mem_map_of_mem Prod.fst ha2) h.1
      · exact ih h.2 ha2 hb2

theorem regInv_createRoom (st : ServerState) (cid : CId) (stream : List (Fin 900000))
    (rid : String) (now : Nat) (h : RegInv st)
    (hf1 : mfind st.roomIds rid = none) (hf2 : mfind st.groups rid = none) :
    RegInv (createRoomH st cid stream rid now).1 := by
  obtain ⟨⟨h1, h2⟩, h3, h4, h5⟩ := h
  cases hgup : generateUniquePasscode st.rooms stream with
  | none =>
    rw [createRoomH_eq_none st cid stream rid now hgup]
    exact ⟨⟨h1, h2⟩, h3, h4, h5⟩
  | some p =>
    have hp : mfind st.rooms p = none := generateUniquePasscode_not_mem _ _ _ hgup
    rw [createRoomH_eq_some st cid stream rid now p hgup]
    refine ⟨⟨?_, ?_⟩, ?_, ?_, ?_⟩
    · intro q room hq
      simp only [mfind_mset] at hq ⊢
      by_cases hqp : q = p
      · rw [if_pos hqp] at hq
        cases hq
        simp [hqp]
      · rw [if_neg hqp] at hq
        have hv := h1 q room hq
        have hne : room.roomId ≠ rid := by
          intro hcontra
          rw [hcontra, hf1] at hv
          cases hv
        rw [if_neg hne]
        exact hv
    · intro r q hq
      simp only [mfind_mset] at hq
      by_cases hr : r = rid
      · rw [if_pos hr] at hq
        cases hq
        refine ⟨⟨rid, now + expiresIn⟩, ?_, hr.symm⟩
        simp [mfind_mset]
      · rw [if_neg hr] at hq
        obtain ⟨room, hroom, hrid⟩ := h2 r q hq
        have hqp : q ≠ p := by
          intro hcontra
          rw [hcontra, hp] at hroom
          cases hroom
        refine ⟨room, ?_, hrid⟩
        simp only [mfind_mset, if_neg hqp]
        exact hroom
    · intro pr hpr
      rcases List.mem_cons.mp hpr with rfl | hpr2
      · refine ⟨⟨rid, now + expiresIn⟩, ?_, rfl⟩
        simp [mfind_mset]
      · obtain ⟨room, hroom, hrid⟩ := h3 pr hpr2
        have hne : pr.1 ≠ p := by
          intro hcontra
          rw [hcontra, hp] at hroom
          cases hroom
        refine ⟨room, ?_, hrid⟩
        simp only [mfind_mset, if_neg hne]
        exact hroom
    · simp only [List.map_cons, List.nodup_cons]
      refine ⟨?_, h4⟩
      intro hmem
      obtain ⟨pr, hpr, hfst⟩ := List.mem_map.mp hmem
      obtain ⟨room, hroom, _⟩ := h3 pr hpr
      rw [hfst, hp] at hroom
      cases hroom
    · intro r q hq
      simp only [mfind_mset] at hq
      by_cases hr : r = rid
      · subst hr
        have hmem : membersOf st.groups r = [] := by
          simp [membersOf, hf2]
        rw [membersOf_sjoin_self, hmem]
        simp
      · rw [if_neg hr] at hq
        rw [membersOf_sjoin_ne st.groups rid cid r hr]
        exact h5 r q hq

theorem membersOf_sleave_ne (g : Groups) (r0 : String) (c : CId) (r : String)
    (h : r ≠ r0) : membersOf (sleave g r0 c) r = membersOf g r := by
  simp [membersOf, mfind_sleave_ne g r0 c r h]

theorem regInv_joinRoom (st : ServerState) (cid : CId)
    (pcOpt ridOpt nameOpt : Option String) (h : RegInv st) :
    RegInv (joinRoomH st cid pcOpt ridOpt nameOpt).1 := by
  obtain ⟨⟨h1, h2⟩, h3, h4, h5⟩ := h
  cases hres : resolveRoom st pcOpt ridOpt with
  | none =>
    rw [joinRoomH_eq_notfound st cid pcOpt ridOpt nameOpt hres]
    exact ⟨⟨h1, h2⟩, h3, h4, h5⟩
  | some rd =>
    cases hfull : roomFull st cid rd.roomId with
    | true =>
      rw [joinRoomH_eq_full st cid pcOpt ridOpt nameOpt rd hres hfull]
      exact ⟨⟨h1, h2⟩, h3, h4, h5⟩
    | false =>
      rw [joinRoomH_eq_ok st cid pcOpt ridOpt nameOpt rd hres hfull]
      refine ⟨⟨h1, h2⟩, h3, h4, ?_⟩
      intro r q hq
      by_cases hr : r = rd.roomId
      · subst hr
        rw [membersOf_sjoin_self]
        by_cases hc : cid ∈ membersOf st.groups rd.roomId
        · rw [if_pos hc]
          exact h5 rd.roomId q hq
        · rw [if_neg hc]
          rw [List.length_append]
          unfold roomFull at hfull
          cases hg : mfind st.groups rd.roomId with
          | none => simp [membersOf, hg]
          | some l =>
            have hml : membersOf st.groups rd.roomId = l := by simp [membersOf, hg]
            rw [hg] at hfull
            have hcl : l.contains cid = false := by
              rw [hml] at hc
              simpa using hc
            dsimp only at hfull
            rw [hcl] at hfull
            simp only [Bool.not_false, Bool.and_true, decide_eq_false_iff_not,
              not_le] at hfull
            rw [hml]
            simp only [List.length_singleton]
            omega
      · rw [membersOf_sjoin_ne st.groups rd.roomId cid r hr]
        exact h5 r q hq

theorem regInv_expire (st : ServerState) (p r : String) (h : RegInv st) :
    RegInv (expireH st p r).1 := by
  obtain ⟨⟨h1, h2⟩, h3, h4, h5⟩ := h
  by_cases hm : (p, r) ∈ st.timers
  · cases hroom : mfind st.rooms p with
    | none =>
      rw [expireH_eq_dead st p r hm hroom]
      refine ⟨⟨h1, h2⟩, ?_, ?_, h5⟩
      · intro pr hpr
        exact h3 pr (List.mem_of_mem_erase hpr)
      · exact h4.sublist ((List.erase_sublist _ _).map Prod.fst)
    | some room =>
      obtain ⟨room0, hroom0, hrid0⟩ := h3 (p, r) hm
      rw [hroom] at hroom0
      injection hroom0 with hinj
      subst hinj
      have hridr : room.roomId = r := hrid0
      rw [expireH_eq_live st p r room hm hroom]
      have hpIdsR : mfind st.roomIds r = some p := by
        have hv := h1 p room hroom
        rwa [hridr] at hv
      refine ⟨⟨?_, ?_⟩, ?_, ?_, ?_⟩
      · intro q roomq hq
        rw [mfind_mdel] at hq
        by_cases hqp : q = p
        · rw [if_pos hqp] at hq; cases hq
        · rw [if_neg hqp] at hq
          have hv := h1 q roomq hq
          have hne : roomq.roomId ≠ r := by
            intro hcontra
            rw [hcontra, hpIdsR] at hv
            injection hv with hpq
            exact hqp hpq.symm
          rw [mfind_mdel, if_neg hne]
          exact hv
      · intro r2 q hq
        rw [mfind_mdel] at hq
        by_cases hr2 : r2 = r
        · rw [if_pos hr2] at hq; cases hq
        · rw [if_neg hr2] at hq
          obtain ⟨roomq, hroomq, hridq⟩ := h2 r2 q hq
          have hqp : q ≠ p := by
            intro hcontra
            subst hcontra
            rw [hroom] at hroomq
            injection hroomq with hinj2
            subst hinj2
            exact hr2 (hridq ▸ hridr)
          refine ⟨roomq, ?_, hridq⟩
          rw [mfind_mdel, if_neg hqp]
          exact hroomq
      · intro pr hpr
        have hnd : st.timers.Nodup := h4.of_map
        obtain ⟨hne, hmem2⟩ := hnd.mem_erase_iff.mp hpr
        obtain ⟨roomq, hroomq, hridq⟩ := h3 pr hmem2
        have hfst : pr.1 ≠ p := by
          intro hcontra
          exact hne (keys_nodup_inj st.timers h4 pr (p, r) hmem2 hm hcontra)
        refine ⟨roomq, ?_, hridq⟩
        rw [mfind_mdel, if_neg hfst]
        exact hroomq
      · exact h4.sublist ((List.erase_sublist _ _).map Prod.fst)
      · intro r2 q hq
        rw [mfind_mdel] at hq
        by_cases hr2 : r2 = r
        · rw [if_pos hr2] at hq; cases hq
        · rw [if_neg hr2] at hq
          unfold membersOf
          rw [mfind_mdel, if_neg hr2]
          exact h5 r2 q hq
  · rw [expireH_eq_notpending st p r hm]
    exact ⟨⟨h1, h2⟩, h3, h4, h5⟩

theorem regInv_step (st : ServerState) (ev : Event) (h : RegInv st)
    (hf : freshRoomKey st ev) : RegInv (stepE st ev).1 := by
  cases ev with
  | createRoom cid stream rid now =>
    exact regInv_createRoom st cid stream rid now h hf.1 hf.2
  | joinRoom cid pcOpt ridOpt nameOpt =>
    exact regInv_joinRoom st cid pcOpt ridOpt nameOpt h
  | sendMessage cid m => rw [stepE, sendMessageH_fst]; exact h
  | typing cid => rw [stepE, typingH_fst]; exact h
  | stopTyping cid => rw [stepE, stopTypingH_fst]; exact h
  | quitRoom cid =>
    rw [stepE, quitRoomH_fst]
    cases truthy (st.sessions cid).roomId with
    | none => exact h
    | some rid =>
      obtain ⟨hb, h3, h4, h5⟩ := h
      refine ⟨hb, h3, h4, ?_⟩
      intro r q hq
      have hle : (membersOf (sleave st.groups rid cid) r).length ≤
          (membersOf st.groups r).length := by
        by_cases hr : r = rid
        · subst hr
          rw [membersOf_sleave_self]
          exact List.length_filter_le _ _
        · rw [membersOf_sleave_ne st.groups rid cid r hr]
      exact le_trans hle (h5 r q hq)
  | disconnect cid =>
    rw [stepE, disconnectH_fst]
    obtain ⟨hb, h3, h4, h5⟩ := h
    refine ⟨hb, h3, h4, ?_⟩
    intro r q hq
    have hle : (membersOf (removeFromAll st.groups cid) r).length ≤
        (membersOf st.groups r).length := by
      rw [membersOf_removeFromAll]
      exact List.length_filter_le _ _
    exact le_trans hle (h5 r q hq)
  | expireFire p r =>
    rw [stepE]
    exact regInv_expire st p r h

theorem regInv_init : RegInv initState := by
  refine ⟨⟨?_, ?_⟩, ?_, ?_, ?_⟩
  · intro p room hq
    simp [initState, mfind] at hq
  · intro r p hq
    simp [initState, mfind] at hq
  · intro pr hpr
    simp [initState] at hpr
  · simp [initState]
  · intro r p hq
    simp [initState, mfind] at hq

theorem regInv_reachableF (st : ServerState) (h : ReachableF st) : RegInv st := by
  induction h with
  | init => exact regInv_init
  | step st2 ev h2 hf ih => exact regInv_step st2 ev ih hf

/-! ### Further helper lemmas -/

theorem membersOf_nodup (st : ServerState) (h : NodupGroups st) (r : String) :
    (membersOf st.groups r).Nodup := by
  unfold membersOf
  cases hg : mfind st.groups r with
  | none => simp
  | some l => simpa using h r l hg

theorem contains_false (l : List CId) (c : CId) (h : c ∉ l) : l.contains c = false := by
  simpa using h

theorem count_map_pair (l : List CId) (pl : Payload) (c : CId) (hnd : l.Nodup) :
    (l.map (fun d => (d, pl))).count (c, pl) = if c ∈ l then 1 else 0 := by
  induction l with
  | nil => simp
  | cons d l ih =>
    rw [List.nodup_cons] at hnd
    simp only [List.map_cons, List.count_cons]
    by_cases hcd : c = d
    · subst hcd
      have h0 : (l.map (fun e => (e, pl))).count (c, pl) = 0 := by
        rw [List.count_eq_zero]
        intro hmem
        obtain ⟨e, he, hpe⟩ := List.mem_map.mp hmem
        have hec : e = c := congrArg Prod.fst hpe
        exact hnd.1 (hec ▸ he)
      rw [h0]
      simp
    · rw [ih hnd.2]
      have hbe : (((d, pl) : Emit) == (c, pl)) = false := by
        simp only [beq_eq_false_iff_ne, ne_eq, Prod.mk.injEq, not_and]
        intro hc
        exact absurd hc.symm hcd
      rw [hbe]
      simp [List.mem_cons, hcd]

theorem updS_self (f : CId → Session) (c : CId) (ss : Session) : updS f c ss c = ss := by
  simp [updS]

theorem updS_ne (f : CId → Session) (c : CId) (ss : Session) (d : CId) (h : d ≠ c) :
    updS f c ss d = f d := by
  simp [updS, h]

theorem joined_ne_full (nm : String) : nm ++ " joined." ≠ "Room is full." := by
  intro h
  have hd : nm.data ++ " joined.".data = "Room is full.".data := by
    rw [← String.data_append]
    exact congrArg String.data h
  have hlen : nm.data.length + " joined.".data.length = "Room is full.".data.length := by
    rw [← List.length_append, hd]
  have h8 : " joined.".data.length = 8 := by decide
  have h13 : "Room is full.".data.length = 13 := by decide
  have h5 : nm.data.length = 5 := by omega
  have hdrop := congrArg (List.drop nm.data.length) hd
  rw [List.drop_left] at hdrop
  rw [h5] at hdrop
  exact absurd hdrop (by decide)

/-! ### Concrete traces used by counterexamples and witnesses -/

/-- A sample 128-bit roomKey (32 lowercase hex characters). -/
def ridA : String := "0123456789abcdef0123456789abcdef"

/-- A second, distinct sample roomKey. -/
def ridB : String := "fedcba9876543210fedcba9876543210"

/-- The zero draw of the passcode RNG: yields passcode "100000". -/
def draw0 : Fin 900000 := ⟨0, by decide⟩

/-- The one draw of the passcode RNG: yields passcode "100001". -/
def draw1 : Fin 900000 := ⟨1, by decide⟩

/-- A state with one room (passcode "100000", roomKey ridA) created by socket 1. -/
def oneRoomState : ServerState := steps initState [Event.createRoom 1 [draw0] ridA 0]

/-- The one-room state after socket 2 joined as "Bob": group ridA = [1, 2]. -/
def twoState : ServerState :=
  steps initState
    [Event.createRoom 1 [draw0] ridA 0, Event.joinRoom 2 (some "100000") none (some "Bob")]

example : mfind oneRoomState.rooms "100000" = some ⟨ridA, expiresIn⟩ := rfl

example : membersOf twoState.groups ridA = [1, 2] := rfl

example : twoState.sessions 2 = ⟨some ridA, some "Bob"⟩ := rfl

/-! ### Claim C1 -/

/-- The trace in which crypto.randomBytes returns the same 16 bytes for two
different createRoom calls (no uniqueness check exists for roomKeys). -/
def collideTrace : List Event :=
  [Event.createRoom 1 [draw0] ridA 0, Event.createRoom 2 [draw1] ridA 0]

/-- The registry state reached by `collideTrace`. -/
def collideState : ServerState := steps initState collideTrace

/-- C1 counterexample: a reachable state (two createRoom calls whose random
roomKeys collide) in which bidirectional index consistency fails: room
"100000" is live but byRoomKey maps its roomKey back to "100001". -/
theorem claim1_counterexample :
    Reachable collideState ∧ ¬ BidirConsistent collideState := by
  constructor
  · exact ⟨collideTrace, rfl⟩
  · intro hb
    have h := hb.1 "100000" ⟨ridA, expiresIn⟩ rfl
    rw [show mfind collideState.roomIds ridA = some "100001" from rfl] at h
    injection h with hinj
    exact absurd hinj (by decide)

/-- C1 (amended): in every state reachable along traces in which every created
roomKey is fresh (the spec treats roomKey collisions as negligible and the code
does not check them), the two registry maps are a consistent bidirectional
index, and this is preserved by every further collision-free operation. -/
theorem claim1_bidirectional_consistency :
    ∀ st, ReachableF st →
      BidirConsistent st ∧
      ∀ ev, freshRoomKey st ev → BidirConsistent (stepE st ev).1 := by
  intro st h
  refine ⟨(regInv_reachableF st h).1, ?_⟩
  intro ev hf
  exact (regInv_reachableF _ (ReachableF.step st ev h hf)).1

/-- Witness for C1: the theorem applied to the state after one concrete
createRoom from the initial state. -/
theorem claim1_witness :
    BidirConsistent (stepE initState (Event.createRoom 1 [draw0] ridA 0)).1 :=
  (claim1_bidirectional_consistency initState ReachableF.init).2
    (Event.createRoom 1 [draw0] ridA 0) ⟨rfl, rfl⟩

/-! ### Claim C2 -/

/-- Trace whose roomKey collision lets a third socket slip into a full room:
createRoom joins its creator to the colliding group without a capacity check. -/
def threeTrace : List Event :=
  [Event.createRoom 1 [draw0] ridA 0,
   Event.joinRoom 2 (some "100000") none (some "Bob"),
   Event.createRoom 3 [draw0, draw1] ridA 0]

/-- The state reached by `threeTrace`: group ridA holds 1, 2 and 3. -/
def threeState : ServerState := steps initState threeTrace

/-- C2 counterexample: a reachable state in which a live roomKey's transport
group holds three connections (roomKey collision at creation bypasses the
joinRoom capacity check). -/
theorem claim2_counterexample :
    Reachable threeState ∧ mfind threeState.roomIds ridA = some "100001" ∧
    membersOf threeState.groups ridA = [1, 2, 3] ∧
    ¬ (membersOf threeState.groups ridA).length ≤ 2 := by
  exact ⟨⟨threeTrace, rfl⟩, rfl, rfl, by decide⟩

/-- C2 (amended): along collision-free traces every live roomKey's group has at
most 2 members; and unconditionally, a distinct third connection whose joinRoom
hits a room whose group already holds 2 members it is not part of receives
exactly `systemMessage "Room is full."` and the state (member set, sessions,
registry) is completely unchanged. -/
theorem claim2_capacity :
    (∀ st, ReachableF st → CapOK st) ∧
    (∀ (st : ServerState) (cid : CId) (pcOpt ridOpt nameOpt : Option String)
      (rd : Room) (l : List CId),
      resolveRoom st pcOpt ridOpt = some rd →
      mfind st.groups rd.roomId = some l → 2 ≤ l.length → cid ∉ l →
      stepE st (Event.joinRoom cid pcOpt ridOpt nameOpt) =
        (st, [(cid, Payload.systemMessage "Room is full.")])) := by
  constructor
  · intro st h
    exact (regInv_reachableF st h).2.2.2
  · intro st cid pcOpt ridOpt nameOpt rd l hres hg hlen hc
    have hfull : roomFull st cid rd.roomId = true := by
      unfold roomFull
      rw [hg]
      dsimp only
      rw [decide_eq_true hlen, contains_false l cid hc]
      rfl
    exact joinRoomH_eq_full st cid pcOpt ridOpt nameOpt rd hres hfull

/-- Witness for C2: the rejection branch applied to a concrete full room. -/
theorem claim2_witness :
    stepE twoState (Event.joinRoom 3 (some "100000") none (some "Carl")) =
      (twoState, [(3, Payload.systemMessage "Room is full.")]) :=
  claim2_capacity.2 twoState 3 (some "100000") none (some "Carl")
    ⟨ridA, expiresIn⟩ [1, 2] rfl rfl (by decide) (by decide)

/-! ### Claim C3 -/

/-- C3: a pending expiry action firing while the passcode is still present
removes both map entries (passcode and roomKey are then unresolvable), leaves
sessions alone, sends "⚠️ Room expired." to each still-connected member of the
group exactly once, and deletes the group; if the room is already absent it
changes no map, group or session and emits nothing. -/
theorem claim3_expiry_semantics :
    ∀ st p r, Reachable st → (p, r) ∈ st.timers →
      (∀ room, mfind st.rooms p = some room →
        mfind (stepE st (Event.expireFire p r)).1.rooms p = none ∧
        mfind (stepE st (Event.expireFire p r)).1.roomIds r = none ∧
        mfind (stepE st (Event.expireFire p r)).1.groups r = none ∧
        (stepE st (Event.expireFire p r)).1.sessions = st.sessions ∧
        (stepE st (Event.expireFire p r)).2 =
          emitToRoom st.groups r (Payload.systemMessage "⚠️ Room expired.") ∧
        (∀ c : CId,
          (stepE st (Event.expireFire p r)).2.count
              (c, Payload.systemMessage "⚠️ Room expired.") =
            if c ∈ membersOf st.groups r then 1 else 0)) ∧
      (mfind st.rooms p = none →
        (stepE st (Event.expireFire p r)).1.rooms = st.rooms ∧
        (stepE st (Event.expireFire p r)).1.roomIds = st.roomIds ∧
        (stepE st (Event.expireFire p r)).1.groups = st.groups ∧
        (stepE st (Event.expireFire p r)).1.sessions = st.sessions ∧
        (stepE st (Event.expireFire p r)).2 = []) := by
  intro st p r hreach hm
  have hstep : stepE st (Event.expireFire p r) = expireH st p r := rfl
  constructor
  · intro room hroom
    rw [hstep, expireH_eq_live st p r room hm hroom]
    refine ⟨?_, ?_, ?_, rfl, rfl, ?_⟩
    · rw [mfind_mdel, if_pos rfl]
    · rw [mfind_mdel, if_pos rfl]
    · rw [mfind_mdel, if_pos rfl]
    · intro c
      exact count_map_pair (membersOf st.groups r) _ c
        (membersOf_nodup st (nodupGroups_reachable st hreach) r)
  · intro hroom
    rw [hstep, expireH_eq_dead st p r hm hroom]
    exact ⟨rfl, rfl, rfl, rfl, rfl⟩

/-- Witness for C3: the expiry of the one concrete room removes its passcode. -/
theorem claim3_witness :
    mfind (stepE oneRoomState (Event.expireFire "100000" ridA)).1.rooms "100000" = none :=
  (((claim3_expiry_semantics oneRoomState "100000" ridA
      ⟨[Event.createRoom 1 [draw0] ridA 0], rfl⟩ (by decide)).1
    ⟨ridA, expiresIn⟩ rfl)).1

/-! ### Claim C4 -/

/-- C4: whenever the resampling loop of generateUniquePasscode terminates it
returns a passcode that is not currently a key of the rooms map, and hence the
live passcodes (keys of `rooms`) stay pairwise distinct in every reachable
state. -/
theorem claim4_passcode_uniqueness :
    (∀ (rooms : List (String × Room)) (stream : List (Fin 900000)) (p : String),
      generateUniquePasscode rooms stream = some p → mfind rooms p = none) ∧
    (∀ st, Reachable st → (st.rooms.map Prod.fst).Nodup) := by
  exact ⟨generateUniquePasscode_not_mem, fun st h => nodupRoomKeys_reachable st h⟩

/-- Witness for C4: the generator applied to the empty registry. -/
theorem claim4_witness : mfind ([] : List (String × Room)) "100000" = none :=
  claim4_passcode_uniqueness.1 [] [draw0] "100000" rfl

/-! ### Claim C5 -/

/-- Trace: create, join, quit, then the quitter sends a message. -/
def quitTrace : List Event :=
  [Event.createRoom 1 [draw0] ridA 0,
   Event.joinRoom 2 (some "100000") none (some "Bob"),
   Event.quitRoom 2,
   Event.sendMessage 2 "hi"]

/-- C5 counterexample: after socket 2 performs quitRoom, its sendMessage still
relays `newMessage` to the remaining room member (socket.roomId is never
cleared and socket.to works for non-members), contradicting "no later
sendMessage ... causes any relay to the room". -/
theorem claim5_counterexample :
    (1, Payload.newMessage "hi" (some "Bob")) ∈ runEmits initState quitTrace := by
  decide

/-- C5 (amended): quitRoom removes the connection from the group (so it gets no
further room broadcasts) but clears no session field; a later sendMessage from
it therefore still relays `newMessage` to the remaining group members. -/
theorem claim5_quit_keeps_session :
    ∀ (st : ServerState) (cid : CId) (rid m : String),
      truthy ((st.sessions cid).roomId) = some rid →
      ((stepE st (Event.quitRoom cid)).1.sessions = st.sessions) ∧
      cid ∉ membersOf (stepE st (Event.quitRoom cid)).1.groups rid ∧
      ((stepE (stepE st (Event.quitRoom cid)).1 (Event.sendMessage cid m)).2 =
        (membersOf (stepE st (Event.quitRoom cid)).1.groups rid).map
          (fun d => (d, Payload.newMessage m ((st.sessions cid).userName)))) := by
  intro st cid rid m hrid
  have hstep : stepE st (Event.quitRoom cid) = quitRoomH st cid := rfl
  have hfst : (quitRoomH st cid).1 = { st with groups := sleave st.groups rid cid } := by
    rw [quitRoomH_fst, hrid]
  rw [hstep, hfst]
  refine ⟨rfl, ?_, ?_⟩
  · show cid ∉ membersOf (sleave st.groups rid cid) rid
    rw [membersOf_sleave_self]
    intro hmem
    have := List.of_mem_filter hmem
    simp at this
  · show (sendMessageH { st with groups := sleave st.groups rid cid } cid m).2 = _
    unfold sendMessageH
    dsimp only
    rw [hrid]
    dsimp only
    show emitToRoomExcept (sleave st.groups rid cid) rid cid
        (Payload.newMessage m ((st.sessions cid).userName)) = _
    unfold emitToRoomExcept
    rw [membersOf_sleave_self, List.filter_filter]
    congr 1
    apply List.filter_congr
    intro d hd
    simp [Bool.and_self]

/-- Witness for C5: the amended theorem applied to the concrete joined state. -/
theorem claim5_witness :
    2 ∉ membersOf (stepE twoState (Event.quitRoom 2)).1.groups ridA :=
  (claim5_quit_keeps_session twoState 2 ridA "hi" rfl).2.1

/-! ### Claim C6 -/

/-- C6 counterexample: the joiner itself receives the "Bob joined." system
message (the code broadcasts with io.to, which does not exclude the sender),
contradicting "to every member other than the joining connection itself". -/
theorem claim6_counterexample :
    (2, Payload.systemMessage "Bob joined.") ∈
      (stepE oneRoomState (Event.joinRoom 2 (some "100000") none (some "Bob"))).2 := by
  decide

/-- C6 (amended): on every successful joinRoom the system message
"<name> joined." is emitted to every member of the room's transport group after
the join, including the joining connection itself. -/
theorem claim6_join_broadcast :
    ∀ (st : ServerState) (cid : CId) (pcOpt ridOpt nameOpt : Option String) (rd : Room),
      resolveRoom st pcOpt ridOpt = some rd →
      roomFull st cid rd.roomId = false →
      ((stepE st (Event.joinRoom cid pcOpt ridOpt nameOpt)).2 =
        (cid, Payload.joinSuccess rd.roomId (mfind st.roomIds rd.roomId) rd.expireAt)
          :: (membersOf (sjoin st.groups rd.roomId cid) rd.roomId).map
               (fun d => (d, Payload.systemMessage (joinName nameOpt ++ " joined.")))) ∧
      cid ∈ membersOf (sjoin st.groups rd.roomId cid) rd.roomId := by
  intro st cid pcOpt ridOpt nameOpt rd hres hfull
  constructor
  · show (joinRoomH st cid pcOpt ridOpt nameOpt).2 = _
    rw [joinRoomH_eq_ok st cid pcOpt ridOpt nameOpt rd hres hfull]
    rfl
  · exact mem_membersOf_sjoin_self st.groups rd.roomId cid

/-- Witness for C6: the theorem applied to a concrete successful join. -/
theorem claim6_witness :
    2 ∈ membersOf (sjoin oneRoomState.groups ridA 2) ridA :=
  (claim6_join_broadcast oneRoomState 2 (some "100000") none (some "Bob")
    ⟨ridA, expiresIn⟩ rfl rfl).2

/-! ### Claim C7 -/

/-- C7: a joinRoom whose passcode/roomKey resolves to no live room leaves the
whole state (groups, sessions, registry) unchanged and sends the requester
exactly `systemMessage "Invalid or expired passcode."`. -/
theorem claim7_join_failure_atomic :
    ∀ (st : ServerState) (cid : CId) (pcOpt ridOpt nameOpt : Option String),
      resolveRoom st pcOpt ridOpt = none →
      stepE st (Event.joinRoom cid pcOpt ridOpt nameOpt) =
        (st, [(cid, Payload.systemMessage "Invalid or expired passcode.")]) := by
  intro st cid pcOpt ridOpt nameOpt hres
  exact joinRoomH_eq_notfound st cid pcOpt ridOpt nameOpt hres

/-- Witness for C7: the spec's scenario, joining with unknown passcode 000000. -/
theorem claim7_witness :
    stepE initState (Event.joinRoom 7 (some "000000") none none) =
      (initState, [(7, Payload.systemMessage "Invalid or expired passcode.")]) :=
  claim7_join_failure_atomic initState 7 (some "000000") none none rfl

/-! ### Claim C8 -/

/-- C8: a connection already a member of the room's transport group is accepted
by joinRoom (emits joinSuccess followed by the joined broadcast) and never
receives "Room is full.", whatever the member count. -/
theorem claim8_idempotent_rejoin :
    ∀ (st : ServerState) (cid : CId) (pcOpt ridOpt nameOpt : Option String)
      (rd : Room) (l : List CId),
      resolveRoom st pcOpt ridOpt = some rd →
      mfind st.groups rd.roomId = some l → cid ∈ l →
      ((stepE st (Event.joinRoom cid pcOpt ridOpt nameOpt)).2 =
        (cid, Payload.joinSuccess rd.roomId (mfind st.roomIds rd.roomId) rd.expireAt)
          :: emitToRoom (sjoin st.groups rd.roomId cid) rd.roomId
               (Payload.systemMessage (joinName nameOpt ++ " joined."))) ∧
      (cid, Payload.systemMessage "Room is full.") ∉
        (stepE st (Event.joinRoom cid pcOpt ridOpt nameOpt)).2 := by
  intro st cid pcOpt ridOpt nameOpt rd l hres hg hc
  have hfull : roomFull st cid rd.roomId = false := by
    unfold roomFull
    rw [hg]
    dsimp only
    rw [(by simpa using hc : l.contains cid = true)]
    simp
  have heq := joinRoomH_eq_ok st cid pcOpt ridOpt nameOpt rd hres hfull
  constructor
  · show (joinRoomH st cid pcOpt ridOpt nameOpt).2 = _
    rw [heq]
  · show (cid, Payload.systemMessage "Room is full.") ∉
      (joinRoomH st cid pcOpt ridOpt nameOpt).2
    rw [heq]
    intro hmem
    rcases List.mem_cons.mp hmem with h1 | h2
    · simp at h1
    · simp only [emitToRoom, List.mem_map] at h2
      obtain ⟨d, hd, hpair⟩ := h2
      have hsnd : Payload.systemMessage (joinName nameOpt ++ " joined.") =
          Payload.systemMessage "Room is full." := congrArg Prod.snd hpair
      injection hsnd with htext
      exact joined_ne_full (joinName nameOpt) htext

/-- Witness for C8: socket 2 re-joining the full concrete room [1, 2] is not
told the room is full. -/
theorem claim8_witness :
    (2, Payload.systemMessage "Room is full.") ∉
      (stepE twoState (Event.joinRoom 2 (some "100000") none (some "Bob"))).2 :=
  (claim8_idempotent_rejoin twoState 2 (some "100000") none (some "Bob")
    ⟨ridA, expiresIn⟩ [1, 2] rfl rfl (by decide)).2

/-! ### Claim C9 -/

/-- Trace: room A with members 1 and 2 ("Bob"), then socket 3 creates room B. -/
def crossTrace : List Event :=
  [Event.createRoom 1 [draw0] ridA 0,
   Event.joinRoom 2 (some "100000") none (some "Bob"),
   Event.createRoom 3 [draw0, draw1] ridB 0]

/-- The state reached by `crossTrace`. -/
def crossState : ServerState := steps initState crossTrace

/-- C9 counterexample: socket 2 (member of room A, userName "Bob") successfully
joins room B as "Carol"; it stays in A's group, but besides socket.roomId the
session field socket.userName is also overwritten — contradicting "only its
session field socket.roomId is overwritten". -/
theorem claim9_counterexample :
    ((crossState.sessions 2).userName = some "Bob") ∧
    (((stepE crossState (Event.joinRoom 2 (some "100001") none (some "Carol"))).1.sessions
        2).userName = some "Carol") ∧
    2 ∈ membersOf
      (stepE crossState (Event.joinRoom 2 (some "100001") none (some "Carol"))).1.groups
      ridA := by
  exact ⟨rfl, rfl, by decide⟩

/-- C9 (amended): a connection in room A's group that performs createRoom or a
successful joinRoom for room B is removed from no transport group (it stays a
member of A and keeps receiving its broadcasts); its session roomId is
overwritten to B, createRoom touches no other session field, and joinRoom also
overwrites userName to the supplied name. -/
theorem claim9_no_group_removal :
    ∀ (st : ServerState) (cid : CId) (g : String),
      (∀ (stream : List (Fin 900000)) (rid : String) (now : Nat),
        cid ∈ membersOf st.groups g →
        cid ∈ membersOf (stepE st (Event.createRoom cid stream rid now)).1.groups g ∧
        ((stepE st (Event.createRoom cid stream rid now)).1.sessions cid).userName =
          (st.sessions cid).userName ∧
        (∀ p, generateUniquePasscode st.rooms stream = some p →
          ((stepE st (Event.createRoom cid stream rid now)).1.sessions cid).roomId =
            some rid)) ∧
      (∀ (pcOpt ridOpt nameOpt : Option String) (rd : Room),
        resolveRoom st pcOpt ridOpt = some rd →
        roomFull st cid rd.roomId = false →
        cid ∈ membersOf st.groups g →
        cid ∈ membersOf (stepE st (Event.joinRoom cid pcOpt ridOpt nameOpt)).1.groups g ∧
        ((stepE st (Event.joinRoom cid pcOpt ridOpt nameOpt)).1.sessions cid).roomId =
          some rd.roomId ∧
        ((stepE st (Event.joinRoom cid pcOpt ridOpt nameOpt)).1.sessions cid).userName =
          some (joinName nameOpt)) := by
  intro st cid g
  constructor
  · intro stream rid now hmem
    cases hgup : generateUniquePasscode st.rooms stream with
    | none =>
      have heq : stepE st (Event.createRoom cid stream rid now) = (st, []) :=
        createRoomH_eq_none st cid stream rid now hgup
      rw [heq]
      refine ⟨hmem, rfl, ?_⟩
      intro p hp
      cases hp
    | some p =>
      have heq := createRoomH_eq_some st cid stream rid now p hgup
      have hstep : stepE st (Event.createRoom cid stream rid now) =
          createRoomH st cid stream rid now := rfl
      rw [hstep, heq]
      refine ⟨mem_membersOf_sjoin_of_mem st.groups rid cid g cid hmem, ?_, ?_⟩
      · show (updS st.sessions cid ⟨some rid, (st.sessions cid).userName⟩ cid).userName = _
        rw [updS_self]
      · intro q hq
        show (updS st.sessions cid ⟨some rid, (st.sessions cid).userName⟩ cid).roomId = _
        rw [updS_self]
  · intro pcOpt ridOpt nameOpt rd hres hfull hmem
    have heq := joinRoomH_eq_ok st cid pcOpt ridOpt nameOpt rd hres hfull
    have hstep : stepE st (Event.joinRoom cid pcOpt ridOpt nameOpt) =
        joinRoomH st cid pcOpt ridOpt nameOpt := rfl
    rw [hstep, heq]
    refine ⟨mem_membersOf_sjoin_of_mem st.groups rd.roomId cid g cid hmem, ?_, ?_⟩
    · show (updS st.sessions cid ⟨some rd.roomId, some (joinName nameOpt)⟩ cid).roomId = _
      rw [updS_self]
    · show (updS st.sessions cid ⟨some rd.roomId, some (joinName nameOpt)⟩ cid).userName = _
      rw [updS_self]

/-- Witness for C9: socket 2 joining room B from `crossState` stays in A's
group. -/
theorem claim9_witness :
    2 ∈ membersOf
      (stepE crossState (Event.joinRoom 2 (some "100001") none (some "Carol"))).1.groups
      ridA :=
  ((claim9_no_group_removal crossState 2 ridA).2 (some "100001") none (some "Carol")
    ⟨ridB, expiresIn⟩ rfl rfl (by decide)).1

/-! ### Claim C10 -/

/-- Whether the trace contains a joinRoom event by the given connection. -/
def hasJoinBy (cid : CId) (evs : List Event) : Bool :=
  evs.any (fun ev => match ev with
    | Event.joinRoom c _ _ _ => c == cid
    | _ => false)

theorem userName_step (st : ServerState) (ev : Event) (cid : CId)
    (hev : ∀ c pcOpt ridOpt nameOpt, ev = Event.joinRoom c pcOpt ridOpt nameOpt → c ≠ cid) :
    ((stepE st ev).1.sessions cid).userName = (st.sessions cid).userName := by
  cases ev with
  | createRoom c stream rid now =>
    cases hgup : generateUniquePasscode st.rooms stream with
    | none =>
      rw [show stepE st (Event.createRoom c stream rid now) = (st, []) from
        createRoomH_eq_none st c stream rid now hgup]
    | some p =>
      have hstep : stepE st (Event.createRoom c stream rid now) =
          createRoomH st c stream rid now := rfl
      rw [hstep, createRoomH_eq_some st c stream rid now p hgup]
      show (updS st.sessions c ⟨some rid, (st.sessions c).userName⟩ cid).userName = _
      by_cases hc : cid = c
      · subst hc
        rw [updS_self]
      · rw [updS_ne st.sessions c _ cid hc]
  | joinRoom c pcOpt ridOpt nameOpt =>
    have hc : c ≠ cid := hev c pcOpt ridOpt nameOpt rfl
    cases hres : resolveRoom st pcOpt ridOpt with
    | none =>
      rw [show stepE st (Event.joinRoom c pcOpt ridOpt nameOpt) = (st, _) from
        joinRoomH_eq_notfound st c pcOpt ridOpt nameOpt hres]
    | some rd =>
      cases hfull : roomFull st c rd.roomId with
      | true =>
        rw [show stepE st (Event.joinRoom c pcOpt ridOpt nameOpt) = (st, _) from
          joinRoomH_eq_full st c pcOpt ridOpt nameOpt rd hres hfull]
      | false =>
        have hstep : stepE st (Event.joinRoom c pcOpt ridOpt nameOpt) =
            joinRoomH st c pcOpt ridOpt nameOpt := rfl
        rw [hstep, joinRoomH_eq_ok st c pcOpt ridOpt nameOpt rd hres hfull]
        show (updS st.sessions c ⟨some rd.roomId, some (joinName nameOpt)⟩ cid).userName = _
        rw [updS_ne st.sessions c _ cid (Ne.symm hc)]
  | sendMessage c m => rw [stepE, sendMessageH_fst]
  | typing c => rw [stepE, typingH_fst]
  | stopTyping c => rw [stepE, stopTypingH_fst]
  | quitRoom c =>
    rw [stepE, quitRoomH_fst]
    cases truthy (st.sessions c).roomId <;> rfl
  | disconnect c => rw [stepE, disconnectH_fst]
  | expireFire p r =>
    by_cases hm : (p, r) ∈ st.timers
    · cases hroom : mfind st.rooms p with
      | some room =>
        rw [show stepE st (Event.expireFire p r) = _ from
          expireH_eq_live st p r room hm hroom]
      | none =>
        rw [show stepE st (Event.expireFire p r) = _ from
          expireH_eq_dead st p r hm hroom]
    · rw [show stepE st (Event.expireFire p r) = (st, []) from
        expireH_eq_notpending st p r hm]

theorem userName_none_of_no_join (cid : CId) (evs : List Event) :
    ∀ st, (st.sessions cid).userName = none → hasJoinBy cid evs = false →
      ((steps st evs).sessions cid).userName = none := by
  induction evs with
  | nil =>
    intro st h _
    exact h
  | cons ev evs ih =>
    intro st h hno
    rw [hasJoinBy, List.any_cons, Bool.or_eq_false_iff] at hno
    refine ih (stepE st ev).1 ?_ hno.2
    rw [userName_step st ev cid ?_]
    · exact h
    · intro c pcOpt ridOpt nameOpt hev hcc
      subst hev
      subst hcc
      have := hno.1
      simp at this

/-- C10: a connection that never issued joinRoom (for example one whose only
room event was createRoom, which sets socket.roomId but never a display name)
has no userName, so its sendMessage relays `newMessage` with an undefined
`from` field to the other group members. -/
theorem claim10_creator_from_undefined :
    ∀ (evs : List Event) (cid : CId) (rid m : String),
      hasJoinBy cid evs = false →
      truthy (((steps initState evs).sessions cid).roomId) = some rid →
      (((steps initState evs).sessions cid).userName = none) ∧
      ((stepE (steps initState evs) (Event.sendMessage cid m)).2 =
        ((membersOf (steps initState evs).groups rid).filter (fun d => d ≠ cid)).map
          (fun d => (d, Payload.newMessage m none))) := by
  intro evs cid rid m hno hrid
  have hname := userName_none_of_no_join cid evs initState rfl hno
  refine ⟨hname, ?_⟩
  show (sendMessageH (steps initState evs) cid m).2 = _
  unfold sendMessageH
  rw [hrid]
  dsimp only
  rw [hname]
  rfl

/-- Witness for C10: creator 1 (never joined) sends "hi"; member 2 receives it
with sender `none` (undefined). -/
theorem claim10_witness :
    (stepE twoState (Event.sendMessage 1 "hi")).2 = [(2, Payload.newMessage "hi" none)] :=
  ((claim10_creator_from_undefined
    [Event.createRoom 1 [draw0] ridA 0, Event.joinRoom 2 (some "100000") none (some "Bob")]
    1 ridA "hi" (by decide) rfl).2).trans (by decide)
